import Mathlib

/-!
Shallow embedding of the wastewater-impact dashboard script (src/Hello.py):
the data-loading step, the coordinate enrichment, the filter engine, the two
group-by aggregations and the map-rendering section, together with theorems
checking the specification of the filter-and-aggregate pipeline.
-/

namespace Dashboard

/-- One parsed CSV row before enrichment, with the columns the script uses:
`Entity`, `Year`, `Health_Impact`, `Premature_Death_Count` and the
discharge-volume column. -/
structure RawRecord where
  entity : String
  year : Int
  health_impact : String
  premature_death_count : Int
  discharge_volume : Int
deriving DecidableEq, Repr

/-- One dataset row after the enrichment step added the `latitude` and
`longitude` columns; the `color` column (created only by the map section at
line 87) is modelled as an optional field that is `none` until assigned. -/
structure Record where
  entity : String
  year : Int
  health_impact : String
  premature_death_count : Int
  discharge_volume : Int
  latitude : Option Rat
  longitude : Option Rat
  color : Option (List Nat)
deriving DecidableEq, Repr

/-- Fixed country-to-coordinates table `country_coords` (lines 23-33). -/
def country_coords : List (String × Rat × Rat) :=
  [("Australia", (-25.2744, 133.7751)),
   ("Belarus", (53.7098, 27.9534)),
   ("Belgium", (50.5039, 4.4699)),
   ("Bulgaria", (42.7339, 25.4858)),
   ("Costa Rica", (9.7489, -83.7534)),
   ("Croatia", (45.1, 15.2)),
   ("Czechia", (49.8175, 15.4730)),
   ("Denmark", (56.2639, 9.5018)),
   ("Estonia", (58.5953, 25.0136))]

/-- Enrichment of one row (lines 37-38): `latitude` and `longitude` come from
the table lookup by entity, via `country_coords.get(x, (None, None))`, so both
are null exactly when the entity is absent; no color column exists yet. -/
def enrichRecord (r : RawRecord) : Record :=
  { entity := r.entity
    year := r.year
    health_impact := r.health_impact
    premature_death_count := r.premature_death_count
    discharge_volume := r.discharge_volume
    latitude := (country_coords.lookup r.entity).map Prod.fst
    longitude := (country_coords.lookup r.entity).map Prod.snd
    color := none }

/-- Failure raised by the tabular library while reading the CSV file: the file
may be missing (`FileNotFoundError`) or present but unparseable. -/
inductive ReadError
  | fileNotFound
  | parseError
deriving DecidableEq, Repr

/-- Loaded tabular file: its rows plus whether the `Entity` column is present
(the check performed at line 36 before enrichment). -/
structure RawFrame where
  hasEntity : Bool
  rows : List RawRecord
deriving DecidableEq, Repr

/-- Outcome of the loading step at lines 16-20: the whole parsed dataset, the
user-visible `DataUnavailable` error followed by a halt of the script, or an
exception that the `try/except` does not catch. -/
inductive LoadOutcome
  | loaded (d : RawFrame)
  | dataUnavailable
  | uncaught (e : ReadError)
deriving DecidableEq, Repr

/-- Loading step (lines 16-20): the `try` block binds the parsed frame; the
`except` clause catches only `FileNotFoundError`, showing the error message
and stopping; any other read failure propagates out of the script. -/
def loadData : Except ReadError RawFrame → LoadOutcome
  | Except.ok d => LoadOutcome.loaded d
  | Except.error ReadError.fileNotFound => LoadOutcome.dataUnavailable
  | Except.error e => LoadOutcome.uncaught e

/-- Schema failure raised when the `Entity` column is absent (lines 39-41). -/
inductive SchemaError
  | missingEntityColumn
deriving DecidableEq, Repr

/-- Enrichment step (lines 36-41): when the `Entity` column is present every
row gets its coordinate columns; otherwise the schema error message is shown
and the script stops. -/
def enrich (f : RawFrame) : Except SchemaError (List Record) :=
  if f.hasEntity then Except.ok (f.rows.map enrichRecord)
  else Except.error SchemaError.missingEntityColumn

/-- User-selected filter state built by the sidebar controls (lines 71-73):
inclusive year range, selected entities, selected health-impact categories. -/
structure FilterCriteria where
  yearLo : Int
  yearHi : Int
  entities : List String
  categories : List String
deriving DecidableEq, Repr

/-- Boolean mask of line 79 evaluated at one row: year within the inclusive
range, entity among the selected countries, health impact among the selected
categories. -/
def matchesCriteria (c : FilterCriteria) (r : Record) : Bool :=
  decide (c.yearLo ≤ r.year) && decide (r.year ≤ c.yearHi)
    && c.entities.contains r.entity && c.categories.contains r.health_impact

/-- Filter engine (line 79): rows of the dataset satisfying the conjunction of
the year-range, entity and health-impact masks. -/
def filtered_data (rows : List Record) (c : FilterCriteria) : List Record :=
  rows.filter (matchesCriteria c)

/-- Semantics of the pandas expression
`groupby('Year')[field].sum().reset_index()` (lines 110 and 117): one output
pair per distinct year of the view, keys sorted ascending, value the sum of
the field over the rows of that year. -/
def groupYearSum (rows : List Record) (f : Record → Int) : List (Int × Int) :=
  ((rows.map (fun r => r.year)).dedup.mergeSort (fun a b => decide (a ≤ b))).map
    (fun y => (y, ((rows.filter (fun r => r.year == y)).map f).sum))

/-- Time series of line 110: premature death count summed per year. -/
def health_data (view : List Record) : List (Int × Int) :=
  groupYearSum view (fun r => r.premature_death_count)

/-- Time series of line 117: discharges to inland waters summed per year. -/
def env_data (view : List Record) : List (Int × Int) :=
  groupYearSum view (fun r => r.discharge_volume)

/-- Semantics of `value_counts` at lines 126-130: one pair per distinct
health-impact label carrying the number of rows with that label, sorted by
count descending. -/
def pie_data (view : List Record) : List (String × Nat) :=
  (((view.map (fun r => r.health_impact)).dedup).map
      (fun h => (h, (view.filter (fun r => r.health_impact == h)).length))).mergeSort
    (fun a b => decide (b.2 ≤ a.2))

/-- Severity-to-color lambda of line 87: red for the `High` category, green
for every other label. -/
def colorOf (h : String) : List Nat :=
  if h == "High" then [255, 0, 0, 160] else [0, 255, 0, 160]

/-- Column assignment of line 87: every row of the view receives the color
derived from its health impact. -/
def assignColors (view : List Record) : List Record :=
  view.map (fun r => { r with color := some (colorOf r.health_impact) })

/-- What the map section displays. -/
inductive RenderOutcome
  | mapView (rows : List Record)
  | noDataMessage
deriving DecidableEq, Repr

/-- Map section (lines 85-99): a non-empty view gets the color column assigned
in place and is rendered as the map; an empty view leaves the frame untouched
and the no-data message is shown instead. The second component is the state of
`filtered_data` after the section runs. -/
def mapSection (view : List Record) : RenderOutcome × List Record :=
  if view.isEmpty then (RenderOutcome.noDataMessage, view)
  else (RenderOutcome.mapView (assignColors view), assignColors view)

/-- Modelled from the spec: the rows actually drawn by the external
`ScatterplotLayer` built at lines 88-95. The layer places one marker per row
at `[longitude, latitude]`; the spec states that rows with null coordinates
are excluded from map rendering, a behaviour of the external pydeck/deck.gl
collaborator rather than of code under src. -/
def map_layer_points (rows : List Record) : List Record :=
  rows.filter (fun r => r.latitude.isSome && r.longitude.isSome)

/-- Projection dropping the color column, used to compare a view before and
after the map section runs. -/
def stripColor (r : Record) : Record := { r with color := none }

/-- Sample row for an entity present in the coordinate table. -/
def ausRow : RawRecord :=
  { entity := "Australia", year := 2015, health_impact := "High"
    premature_death_count := 10, discharge_volume := 3 }

/-- Sample row for an entity absent from the coordinate table. -/
def atlRow : RawRecord :=
  { entity := "Atlantis", year := 2016, health_impact := "Low"
    premature_death_count := 5, discharge_volume := 2 }

/-! ### Helper lemmas -/

/-- Lookup in an association list succeeds exactly for the stored keys. -/
theorem lookup_isSome_iff {α β : Type} [BEq α] [LawfulBEq α]
    (l : List (α × β)) (a : α) :
    (l.lookup a).isSome = true ↔ a ∈ l.map Prod.fst := by
  induction l with
  | nil => simp [List.lookup]
  | cons p l ih =>
    obtain ⟨k, v⟩ := p
    cases hkv : a == k with
    | true =>
      have hak : a = k := eq_of_beq hkv
      subst hak
      simp [List.lookup, hkv]
    | false =>
      have hne : a ≠ k := fun h => by simp [h] at hkv
      simp [List.lookup, hkv, ih, hne]

/-- Summing a mapped function over a list splits across a boolean partition. -/
theorem sum_map_filter_not_add {ρ M : Type} [AddCommMonoid M]
    (p : ρ → Bool) (f : ρ → M) (l : List ρ) :
    ((l.filter p).map f).sum + ((l.filter fun r => !(p r)).map f).sum
      = (l.map f).sum := by
  induction l with
  | nil => simp
  | cons a l ih =>
    cases h : p a with
    | true =>
      have h1 : (a :: l).filter p = a :: l.filter p := by simp [List.filter_cons, h]
      have h2 : (a :: l).filter (fun r => !(p r)) = l.filter (fun r => !(p r)) := by
        simp [List.filter_cons, h]
      rw [h1, h2, List.map_cons, List.sum_cons, add_assoc, ih, List.map_cons,
        List.sum_cons]
    | false =>
      have h1 : (a :: l).filter p = l.filter p := by simp [List.filter_cons, h]
      have h2 : (a :: l).filter (fun r => !(p r))
          = a :: l.filter (fun r => !(p r)) := by simp [List.filter_cons, h]
      rw [h1, h2, List.map_cons, List.sum_cons, add_left_comm, ih, List.map_cons,
        List.sum_cons]

/-- Fiberwise sums over a duplicate-free key list covering every row add up to
the total sum over the rows. -/
theorem sum_over_keys {ρ α M : Type} [BEq α] [LawfulBEq α] [AddCommMonoid M]
    (key : ρ → α) (f : ρ → M) :
    ∀ (ks : List α) (l : List ρ), ks.Nodup → (∀ r ∈ l, key r ∈ ks) →
      (ks.map fun k => ((l.filter fun r => key r == k).map f).sum).sum
        = (l.map f).sum := by
  intro ks
  induction ks with
  | nil =>
    intro l _ hcov
    cases l with
    | nil => simp
    | cons a l => exact absurd (hcov a (by simp)) (by simp)
  | cons k ks ih =>
    intro l hnd hcov
    rw [List.map_cons, List.sum_cons]
    have hrest : (ks.map fun q => ((l.filter fun r => key r == q).map f).sum).sum
        = (((l.filter fun r => !(key r == k)).map f).sum) := by
      have hcov2 : ∀ r ∈ (l.filter fun r => !(key r == k)), key r ∈ ks := by
        intro r hr
        obtain ⟨hrl, hrk⟩ := List.mem_filter.mp hr
        have hrk2 : ¬ key r = k := by simpa using hrk
        rcases List.mem_cons.mp (hcov r hrl) with h | h
        · exact absurd h hrk2
        · exact h
      rw [← ih (l.filter fun r => !(key r == k)) hnd.of_cons hcov2]
      apply congrArg
      apply List.map_congr_left
      intro q hq
      have hqk : q ≠ k := fun h => (List.nodup_cons.mp hnd).1 (h ▸ hq)
      have hff : (l.filter fun r => !(key r == k)).filter (fun r => key r == q)
          = l.filter fun r => key r == q := by
        rw [List.filter_filter]
        apply List.filter_congr
        intro r _
        cases hrq : key r == q with
        | true =>
          have hkr : key r = q := eq_of_beq hrq
          simp [hkr, hqk]
        | false => simp [hrq]
      rw [hff]
    rw [hrest, sum_map_filter_not_add (fun r => key r == k) f l]

/-- Mapping every element to one and summing counts the length. -/
theorem sum_map_one {ρ : Type} (l : List ρ) :
    (l.map fun _ => (1 : Nat)).sum = l.length := by
  induction l with
  | nil => rfl
  | cons a l ih => simp [ih, Nat.add_comm]

/-- Keys of the group-by-year output are the ascending deduplicated years. -/
theorem groupYearSum_keys (rows : List Record) (f : Record → Int) :
    (groupYearSum rows f).map Prod.fst
      = (rows.map fun r => r.year).dedup.mergeSort (fun a b => decide (a ≤ b)) := by
  unfold groupYearSum
  rw [List.map_map]
  have hc : (Prod.fst ∘ fun y : Int =>
      (y, ((rows.filter fun r => r.year == y).map f).sum)) = fun y => y := rfl
  rw [hc, List.map_id']

/-- Keys of the group-by-year output are strictly ascending. -/
theorem groupYearSum_sorted (rows : List Record) (f : Record → Int) :
    List.Pairwise (· < ·) ((groupYearSum rows f).map Prod.fst) := by
  rw [groupYearSum_keys]
  have hle : List.Pairwise (fun a b : Int => decide (a ≤ b) = true)
      ((rows.map fun r => r.year).dedup.mergeSort (fun a b => decide (a ≤ b))) :=
    List.sorted_mergeSort
      (by intro a b c hab hbc; simp at *; omega)
      (by intro a b; simpa using le_total a b) _
  have hnd : ((rows.map fun r => r.year).dedup.mergeSort
      (fun a b => decide (a ≤ b))).Nodup :=
    ((List.mergeSort_perm _ _).nodup_iff).mpr (List.nodup_dedup _)
  exact (hle.and hnd).imp fun hab =>
    lt_of_le_of_ne (of_decide_eq_true hab.1) hab.2

/-- Keys of the group-by-year output are exactly the years of the view. -/
theorem groupYearSum_mem_keys (rows : List Record) (f : Record → Int) (y : Int) :
    y ∈ (groupYearSum rows f).map Prod.fst ↔ y ∈ rows.map fun r => r.year := by
  rw [groupYearSum_keys]
  simp [List.mem_mergeSort, List.mem_dedup]

/-- Values of the group-by-year output add up to the total of the field. -/
theorem groupYearSum_total (rows : List Record) (f : Record → Int) :
    ((groupYearSum rows f).map Prod.snd).sum = (rows.map f).sum := by
  have hperm : ((groupYearSum rows f).map Prod.snd).Perm
      ((rows.map fun r => r.year).dedup.map
        fun y => ((rows.filter fun r => r.year == y).map f).sum) := by
    unfold groupYearSum
    rw [List.map_map]
    exact (List.mergeSort_perm _ _).map _
  rw [hperm.sum_eq]
  exact sum_over_keys (fun r => r.year) f _ rows (List.nodup_dedup _)
    (fun r hr => List.mem_dedup.mpr (List.mem_map_of_mem _ hr))

/-- Category pairs are a permutation of one count pair per distinct label. -/
theorem pie_data_perm (view : List Record) :
    (pie_data view).Perm
      ((view.map fun r => r.health_impact).dedup.map
        fun h => (h, (view.filter fun r => r.health_impact == h).length)) :=
  List.mergeSort_perm _ _

/-- Category keys are a permutation of the deduplicated labels of the view. -/
theorem pie_data_keys_perm (view : List Record) :
    ((pie_data view).map Prod.fst).Perm
      (view.map fun r => r.health_impact).dedup := by
  have h := (pie_data_perm view).map Prod.fst
  rw [List.map_map] at h
  have hc : (Prod.fst ∘ fun h : String =>
      (h, (view.filter fun r => r.health_impact == h).length)) = fun h => h := rfl
  rw [hc, List.map_id'] at h
  exact h

/-! ### Claim theorems -/

/-- C1: the filter engine returns exactly the records whose year lies within
the inclusive range, whose entity is among the selected entities and whose
health impact is among the selected categories; no record outside the
criteria appears in the filtered view. -/
theorem filtered_data_mem_iff (rows : List Record) (c : FilterCriteria)
    (r : Record) :
    r ∈ filtered_data rows c ↔
      r ∈ rows ∧ c.yearLo ≤ r.year ∧ r.year ≤ c.yearHi ∧
        r.entity ∈ c.entities ∧ r.health_impact ∈ c.categories := by
  simp [filtered_data, matchesCriteria, List.mem_filter, and_assoc]

/-- C2: both time-series aggregations output year keys that are strictly
ascending with no duplicates, contain exactly the years present in the view,
and their sums add up to the total of the aggregated field over the view. -/
theorem time_series_aggregation_correct (view : List Record) :
    (List.Pairwise (· < ·) ((health_data view).map Prod.fst) ∧
      (∀ y : Int, y ∈ (health_data view).map Prod.fst
        ↔ y ∈ view.map fun r => r.year) ∧
      ((health_data view).map Prod.snd).sum
        = (view.map fun r => r.premature_death_count).sum) ∧
    (List.Pairwise (· < ·) ((env_data view).map Prod.fst) ∧
      (∀ y : Int, y ∈ (env_data view).map Prod.fst
        ↔ y ∈ view.map fun r => r.year) ∧
      ((env_data view).map Prod.snd).sum
        = (view.map fun r => r.discharge_volume).sum) :=
  ⟨⟨groupYearSum_sorted view _, fun y => groupYearSum_mem_keys view _ y,
      groupYearSum_total view _⟩,
    ⟨groupYearSum_sorted view _, fun y => groupYearSum_mem_keys view _ y,
      groupYearSum_total view _⟩⟩

/-- C3: the category aggregation has duplicate-free keys covering exactly the
categories present in the view, pairs every key with the number of rows
carrying it, and its counts add up to the size of the view. -/
theorem category_aggregation_correct (view : List Record) :
    ((pie_data view).map Prod.fst).Nodup ∧
      (∀ h : String, h ∈ (pie_data view).map Prod.fst
        ↔ h ∈ view.map fun r => r.health_impact) ∧
      (∀ p ∈ pie_data view,
        p.2 = (view.filter fun r => r.health_impact == p.1).length) ∧
      ((pie_data view).map Prod.snd).sum = view.length := by
  refine ⟨?_, ?_, ?_, ?_⟩
  · exact ((pie_data_keys_perm view).nodup_iff).mpr (List.nodup_dedup _)
  · intro h
    rw [(pie_data_keys_perm view).mem_iff]
    exact List.mem_dedup
  · intro p hp
    have hp2 := (pie_data_perm view).mem_iff.mp hp
    obtain ⟨h, _, rfl⟩ := List.mem_map.mp hp2
    rfl
  · have hperm := (pie_data_perm view).map Prod.snd
    rw [hperm.sum_eq, List.map_map]
    have hc : (Prod.snd ∘ fun h : String =>
        (h, (view.filter fun r => r.health_impact == h).length))
        = fun h => (view.filter fun r => r.health_impact == h).length := rfl
    rw [hc]
    have htot := sum_over_keys (fun r => r.health_impact) (fun _ => (1 : Nat))
      (view.map fun r => r.health_impact).dedup view (List.nodup_dedup _)
      (fun r hr => List.mem_dedup.mpr (List.mem_map_of_mem _ hr))
    rw [sum_map_one] at htot
    rw [← htot]
    apply congrArg
    apply List.map_congr_left
    intro h _
    rw [← sum_map_one (view.filter fun r => r.health_impact == h)]

/-- Witness for the category aggregation claim at a concrete two-row view. -/
theorem category_aggregation_correct_witness :
    ("High", 1) ∈ pie_data [enrichRecord ausRow, enrichRecord atlRow] ∧
      (("High", 1) : String × Nat).2
        = ([enrichRecord ausRow, enrichRecord atlRow].filter
            fun r => r.health_impact == "High").length ∧
      ((pie_data [enrichRecord ausRow, enrichRecord atlRow]).map Prod.snd).sum
        = 2 := by
  have hmem : ("High", 1) ∈ pie_data [enrichRecord ausRow, enrichRecord atlRow] := by
    simp [pie_data, enrichRecord, ausRow, atlRow, List.mergeSort, List.dedup]
  refine ⟨hmem, ?_, ?_⟩
  · exact (category_aggregation_correct
      [enrichRecord ausRow, enrichRecord atlRow]).2.2.1 ("High", 1) hmem
  · exact (category_aggregation_correct
      [enrichRecord ausRow, enrichRecord atlRow]).2.2.2

/-- C4 counterexample: a file that exists but cannot be parsed does not give
the DataUnavailable outcome; the exception passes the handler uncaught. -/
theorem parse_error_not_data_unavailable :
    loadData (Except.error ReadError.parseError) ≠ LoadOutcome.dataUnavailable
      ∧ loadData (Except.error ReadError.parseError)
          = LoadOutcome.uncaught ReadError.parseError := by
  exact ⟨by decide, rfl⟩

/-- C4 amended: the loader yields the whole parsed dataset exactly on a
successful read, and the user-visible DataUnavailable halt when the file is
missing; in no case is a partial dataset returned. -/
theorem loadData_correct (res : Except ReadError RawFrame) :
    (res = Except.error ReadError.fileNotFound →
      loadData res = LoadOutcome.dataUnavailable) ∧
    (∀ d : RawFrame, loadData res = LoadOutcome.loaded d ↔ res = Except.ok d) := by
  cases res with
  | ok d0 =>
    refine ⟨fun h => by simp at h, ?_⟩
    intro d
    simp [loadData]
  | error e =>
    cases e with
    | fileNotFound =>
      refine ⟨fun _ => rfl, ?_⟩
      intro d
      simp [loadData]
    | parseError =>
      refine ⟨fun h => by simp at h, ?_⟩
      intro d
      simp [loadData]

/-- Witness for the amended loader claim at the missing-file input and at a
concrete successful read. -/
theorem loadData_correct_witness :
    loadData (Except.error ReadError.fileNotFound) = LoadOutcome.dataUnavailable
      ∧ (loadData (Except.ok (RawFrame.mk true [ausRow]))
          = LoadOutcome.loaded (RawFrame.mk true [ausRow])
        ↔ (Except.ok (RawFrame.mk true [ausRow]) :
            Except ReadError RawFrame) = Except.ok (RawFrame.mk true [ausRow])) :=
  ⟨(loadData_correct _).1 rfl, (loadData_correct _).2 _⟩

/-- C5: the enricher fails with the schema error exactly when the entity
column is missing; otherwise it returns the dataset in which every record
carries the coordinates looked up by its entity, null exactly when the entity
is absent from the coordinate table. -/
theorem enrich_correct (f : RawFrame) :
    (f.hasEntity = false →
      enrich f = Except.error SchemaError.missingEntityColumn) ∧
    (f.hasEntity = true → enrich f = Except.ok (f.rows.map enrichRecord)) ∧
    (∀ r : RawRecord, ∀ la lo : Rat,
      country_coords.lookup r.entity = some (la, lo) →
        (enrichRecord r).latitude = some la
          ∧ (enrichRecord r).longitude = some lo) ∧
    (∀ r : RawRecord, country_coords.lookup r.entity = none →
      (enrichRecord r).latitude = none ∧ (enrichRecord r).longitude = none) ∧
    (∀ r : RawRecord,
      ((enrichRecord r).latitude.isSome = true
          ∨ (enrichRecord r).longitude.isSome = true)
        ↔ r.entity ∈ country_coords.map Prod.fst) := by
  refine ⟨fun h => by simp [enrich, h], fun h => by simp [enrich, h], ?_, ?_, ?_⟩
  · intro r la lo h
    simp [enrichRecord, h]
  · intro r h
    simp [enrichRecord, h]
  · intro r
    rw [← lookup_isSome_iff]
    cases h : country_coords.lookup r.entity <;> simp [enrichRecord, h]

/-- Witness for the enricher claim at a schemaless frame, a mapped entity and
an unmapped entity. -/
theorem enrich_correct_witness :
    enrich (RawFrame.mk false [ausRow])
        = Except.error SchemaError.missingEntityColumn
      ∧ enrich (RawFrame.mk true [ausRow])
          = Except.ok ([ausRow].map enrichRecord)
      ∧ (enrichRecord ausRow).latitude = some (-25.2744 : Rat)
      ∧ (enrichRecord atlRow).latitude = none
      ∧ (enrichRecord atlRow).longitude = none := by
  refine ⟨(enrich_correct _).1 rfl, (enrich_correct _).2.1 rfl, ?_, ?_, ?_⟩
  · exact ((enrich_correct (RawFrame.mk true [])).2.2.1 ausRow
      (-25.2744 : Rat) (133.7751 : Rat) rfl).1
  · exact ((enrich_correct (RawFrame.mk true [])).2.2.2.1 atlRow rfl).1
  · exact ((enrich_correct (RawFrame.mk true [])).2.2.2.1 atlRow rfl).2

/-- C6: the filtered view is a sublist of the dataset, hence a subset with no
fabricated rows, and its length never exceeds the length of the dataset. -/
theorem filtered_data_sublist (rows : List Record) (c : FilterCriteria) :
    List.Sublist (filtered_data rows c) rows
      ∧ (filtered_data rows c).length ≤ rows.length :=
  ⟨List.filter_sublist rows, List.length_filter_le _ rows⟩

/-- C7: an empty entity selection, an empty category selection, or a year
range missing every row of the dataset yields an empty filtered view; the map
section then shows the no-data message and both aggregations return empty
tables rather than failing. -/
theorem empty_criteria_no_data (rows : List Record) (c : FilterCriteria)
    (h : c.entities = [] ∨ c.categories = [] ∨
      (∀ r ∈ rows, r.year < c.yearLo ∨ c.yearHi < r.year) ∨
      ∀ r ∈ rows, matchesCriteria c r = false) :
    filtered_data rows c = [] ∧
      (mapSection (filtered_data rows c)).1 = RenderOutcome.noDataMessage ∧
      health_data (filtered_data rows c) = [] ∧
      env_data (filtered_data rows c) = [] ∧
      pie_data (filtered_data rows c) = [] := by
  have hempty : filtered_data rows c = [] := by
    apply List.filter_eq_nil_iff.mpr
    intro r hr
    rcases h with h | h | h | h
    · simp [matchesCriteria, h]
    · simp [matchesCriteria, h]
    · have hy := h r hr
      simp only [matchesCriteria, Bool.and_eq_true, decide_eq_true_eq]
      rintro ⟨⟨⟨h1, h2⟩, _⟩, _⟩
      omega
    · simp [h r hr]
  rw [hempty]
  refine ⟨rfl, rfl, ?_, ?_, ?_⟩ <;>
    simp [health_data, env_data, pie_data, groupYearSum]

/-- Witness for the empty-criteria claim at a one-row dataset with no entity
selected. -/
theorem empty_criteria_no_data_witness :
    filtered_data [enrichRecord ausRow]
        (FilterCriteria.mk 2015 2019 [] ["High"]) = [] ∧
      (mapSection (filtered_data [enrichRecord ausRow]
        (FilterCriteria.mk 2015 2019 [] ["High"]))).1
          = RenderOutcome.noDataMessage ∧
      health_data (filtered_data [enrichRecord ausRow]
        (FilterCriteria.mk 2015 2019 [] ["High"])) = [] ∧
      env_data (filtered_data [enrichRecord ausRow]
        (FilterCriteria.mk 2015 2019 [] ["High"])) = [] ∧
      pie_data (filtered_data [enrichRecord ausRow]
        (FilterCriteria.mk 2015 2019 [] ["High"])) = [] :=
  empty_criteria_no_data [enrichRecord ausRow]
    (FilterCriteria.mk 2015 2019 [] ["High"]) (Or.inl rfl)

/-- C8: a record with an entity absent from the coordinate table is enriched
with null coordinates, its colored row is not among the points the map layer
draws, while its year and category still appear in the time-series and
category aggregations of any view containing it. -/
theorem unmapped_entity_behaviour (r0 : RawRecord) (view : List Record)
    (habs : country_coords.lookup r0.entity = none)
    (hmem : enrichRecord r0 ∈ view) :
    (enrichRecord r0).latitude = none ∧ (enrichRecord r0).longitude = none ∧
      { enrichRecord r0 with color := some (colorOf r0.health_impact) }
          ∉ map_layer_points (assignColors view) ∧
      r0.year ∈ (health_data view).map Prod.fst ∧
      r0.year ∈ (env_data view).map Prod.fst ∧
      r0.health_impact ∈ (pie_data view).map Prod.fst := by
  have hlat : (enrichRecord r0).latitude = none := by simp [enrichRecord, habs]
  have hlon : (enrichRecord r0).longitude = none := by simp [enrichRecord, habs]
  refine ⟨hlat, hlon, ?_, ?_, ?_, ?_⟩
  · intro hpts
    have hpred := (List.mem_filter.mp hpts).2
    simp [enrichRecord, habs] at hpred
  · exact (groupYearSum_mem_keys view _ r0.year).mpr
      (List.mem_map.mpr ⟨enrichRecord r0, hmem, rfl⟩)
  · exact (groupYearSum_mem_keys view _ r0.year).mpr
      (List.mem_map.mpr ⟨enrichRecord r0, hmem, rfl⟩)
  · exact ((pie_data_keys_perm view).mem_iff).mpr
      (List.mem_dedup.mpr (List.mem_map.mpr ⟨enrichRecord r0, hmem, rfl⟩))

/-- Witness for the unmapped-entity claim at the Atlantis row. -/
theorem unmapped_entity_behaviour_witness :
    (enrichRecord atlRow).latitude = none
      ∧ (enrichRecord atlRow).longitude = none ∧
      { enrichRecord atlRow with color := some (colorOf atlRow.health_impact) }
          ∉ map_layer_points (assignColors [enrichRecord atlRow]) ∧
      atlRow.year ∈ (health_data [enrichRecord atlRow]).map Prod.fst ∧
      atlRow.year ∈ (env_data [enrichRecord atlRow]).map Prod.fst ∧
      atlRow.health_impact ∈ (pie_data [enrichRecord atlRow]).map Prod.fst :=
  unmapped_entity_behaviour atlRow [enrichRecord atlRow] rfl (by simp)

/-- C9: every row of the colored view carries a color determined by the
two-case severity classification: the High label receives the red marker
color and every other label the single green color. -/
theorem assignColors_two_case (view : List Record) (r : Record)
    (hr : r ∈ assignColors view) :
    (r.health_impact = "High" → r.color = some [255, 0, 0, 160]) ∧
      (r.health_impact ≠ "High" → r.color = some [0, 255, 0, 160]) := by
  obtain ⟨r0, _, rfl⟩ := List.mem_map.mp hr
  constructor
  · intro h
    simp [colorOf, h] at *
    simp [h]
  · intro h
    simp [colorOf] at *
    simp [h]

/-- Witness for the coloring claim at a view holding one High row. -/
theorem assignColors_two_case_witness :
    (({ enrichRecord ausRow with
        color := some (colorOf (enrichRecord ausRow).health_impact) } :
          Record).health_impact = "High" →
      ({ enrichRecord ausRow with
        color := some (colorOf (enrichRecord ausRow).health_impact) } :
          Record).color = some [255, 0, 0, 160]) ∧
    (({ enrichRecord ausRow with
        color := some (colorOf (enrichRecord ausRow).health_impact) } :
          Record).health_impact ≠ "High" →
      ({ enrichRecord ausRow with
        color := some (colorOf (enrichRecord ausRow).health_impact) } :
          Record).color = some [0, 255, 0, 160]) :=
  assignColors_two_case [enrichRecord ausRow] _ (by simp [assignColors])

/-- C10 counterexample: rendering a non-empty view assigns the color column in
place, so the view after the map section differs from the view before it. -/
theorem map_section_mutates_view :
    (mapSection [enrichRecord atlRow]).2 ≠ [enrichRecord atlRow] ∧
      (mapSection [enrichRecord atlRow]).2.map (fun r => r.color)
        = [some [0, 255, 0, 160]] ∧
      [enrichRecord atlRow].map (fun r => r.color) = [none] := by
  refine ⟨?_, rfl, rfl⟩
  intro hEq
  have hcol := congrArg (fun l => l.map fun r : Record => r.color) hEq
  simp [mapSection, assignColors, colorOf, enrichRecord, atlRow] at hcol

/-- C10 amended: the map section preserves the number of rows of the view and
every column other than the color column it assigns in place. -/
theorem map_section_preserves_rows (view : List Record) :
    ((mapSection view).2).length = view.length ∧
      ((mapSection view).2).map stripColor = view.map stripColor := by
  cases h : view.isEmpty with
  | true => simp [mapSection, h]
  | false =>
    have hc : (stripColor ∘ fun r : Record =>
        { r with color := some (colorOf r.health_impact) }) = stripColor :=
      funext fun r => rfl
    simp [mapSection, h, assignColors, List.map_map, hc]

end Dashboard
